import Mathlib

/-!
Verification of the Flecsa document-vault backend.

This file gives a shallow embedding, in Lean 4, of the parts of the
repository that the specification's testable properties talk about:

* the per-tenant AES-256-GCM helpers `encryptBuffer` / `decryptBuffer`
  of the documents router (byte buffers are `List Nat`, each entry a
  byte value; the external AES-256 block cipher and the external
  `scryptSync` key-derivation function are parameters of the model,
  while the GCM mode of operation itself — CTR keystream, GHASH,
  tag construction — is embedded concretely);
* the OCR field extractor `extractDocumentData` together with the
  JavaScript regular-expression matching it performs;
* the tag-merge helper `pickSimilarExisting`;
* the boost-and-resort pass of the filtered search route;
* the pagination contract of the search route (`zod` validation plus
  SQL `LIMIT ? OFFSET ?` semantics modelled as `drop`/`take`);
* the `checkStorageLimit` middleware;
* the OCR noise heuristic of the upload handler;
* the upload handler's control flow over the filesystem / database
  effects it performs (quota check, encrypted-blob write, original
  unlink, document insert, storage update, and the catch/cleanup path).

Theorems near the end of the file settle the specification's claims
against these definitions.
-/

/-! ## Byte-level helpers -/

/-- Big-endian interpretation of a byte list as a natural number. -/
def beToNat (bs : List Nat) : Nat :=
  bs.foldl (fun a b => a * 256 + b) 0

/-- `natToBE n v` is the `n`-byte big-endian encoding of `v % 256^n`. -/
def natToBE : Nat → Nat → List Nat
  | 0, _ => []
  | n + 1, v => natToBE n (v / 256) ++ [v % 256]

/-- Pointwise XOR of two byte lists (length of the shorter). -/
def xorBytes (xs ys : List Nat) : List Nat :=
  List.zipWith Nat.xor xs ys

/-! ## Crypto Vault: AES-256-GCM as used by the documents router

The router calls Node's `crypto.createCipheriv('aes-256-gcm', key, iv)`
with `key = scryptSync(baseSecret ++ ":" ++ userId, 'flecsa-salt', 32)`
and AAD `'flecsa-document'`.  AES-256 itself and `scrypt` are external
library primitives; the model abstracts them as the fields of
`CryptoPrim`.  GCM (NIST SP 800-38D) is embedded concretely: the
ciphertext is the plaintext XORed against the CTR keystream derived
from `J0 = iv ++ [0,0,0,1]`, and the tag is `GHASH` over the padded
AAD and ciphertext, XORed with `E_k(J0)`.  (The bit order inside the
GF(2^128) multiplication is a modelling choice; no claim depends on it.) -/

/-- External cryptographic primitives used by the router:
the AES-256 block cipher (32-byte key, 16-byte block in and out) and
the `scryptSync(password, salt, keylen)` key-derivation function. -/
structure CryptoPrim where
  blockEnc : List Nat → List Nat → List Nat
  scrypt : String → String → Nat → List Nat

/-- 32-bit big-endian increment of the last four bytes of a counter
block (GCM's `inc32`). -/
def inc32 (blk : List Nat) : List Nat :=
  blk.take 12 ++ natToBE 4 ((beToNat (blk.drop 12) + 1) % 2 ^ 32)

/-- `n` successive CTR keystream blocks starting from `inc32 icb`. -/
def ctrBlocks (P : CryptoPrim) (key : List Nat) : Nat → List Nat → List (List Nat)
  | 0, _ => []
  | n + 1, c =>
    let c' := inc32 c
    P.blockEnc key c' :: ctrBlocks P key n c'

/-- `n` bytes of the GCM CTR keystream for initial counter block `icb`. -/
def gctr (P : CryptoPrim) (key icb : List Nat) (n : Nat) : List Nat :=
  (List.flatten (ctrBlocks P key ((n + 15) / 16) icb)).take n

/-- The GCM reduction polynomial `x^128 + x^7 + x^2 + x + 1` as a bit mask. -/
def gcmPoly : Nat := 2 ^ 128 + 2 ^ 7 + 2 ^ 2 + 2 + 1

/-- Multiply by `x` in GF(2^128). -/
def gfDouble (a : Nat) : Nat :=
  let s := a * 2
  if s < 2 ^ 128 then s else Nat.xor s gcmPoly

/-- Carry-less (GF(2^128)) multiplication, processing the 128 bits of
`a` most-significant first. -/
def gfMul (a b : Nat) : Nat :=
  (List.range 128).foldl
    (fun acc i =>
      let acc' := gfDouble acc
      if a.testBit (127 - i) then Nat.xor acc' b else acc') 0

/-- GHASH over a list of 16-byte blocks with hash subkey `h`. -/
def ghash (h : Nat) (blocks : List (List Nat)) : Nat :=
  blocks.foldl (fun y b => gfMul (Nat.xor y (beToNat b)) h) 0

/-- Zero-pad a byte list on the right to a multiple of 16 bytes. -/
def padTo16 (bs : List Nat) : List Nat :=
  bs ++ List.replicate ((16 - bs.length % 16) % 16) 0

/-- Split a byte list into 16-byte chunks. -/
def chunk16 : List Nat → List (List Nat)
  | [] => []
  | b :: bs =>
    (b :: bs).take 16 :: chunk16 ((b :: bs).drop 16)
termination_by l => l.length
decreasing_by simp only [List.length_drop, List.length_cons]; omega

/-- The GCM authentication tag for `ciphertext` under `key` and 96-bit
`iv`, with associated data `aad`. -/
def gcmTag (P : CryptoPrim) (key iv aad ct : List Nat) : List Nat :=
  let h := beToNat (P.blockEnc key (List.replicate 16 0))
  let j0 := iv ++ [0, 0, 0, 1]
  let s := ghash h
    (chunk16 (padTo16 aad) ++ chunk16 (padTo16 ct) ++
      [natToBE 8 (8 * aad.length) ++ natToBE 8 (8 * ct.length)])
  xorBytes (natToBE 16 s) (P.blockEnc key j0)

/-- The fixed associated data `Buffer.from('flecsa-document', 'utf8')`. -/
def flecsaAAD : List Nat := "flecsa-document".data.map Char.toNat

/-- `scryptSync(baseSecret ++ ":" ++ userId, 'flecsa-salt', 32)` —
the per-tenant key derivation shared by `encryptBuffer` and
`decryptBuffer`. -/
def deriveKey (P : CryptoPrim) (baseSecret : String) (userId : Nat) : List Nat :=
  P.scrypt (baseSecret ++ ":" ++ toString userId) "flecsa-salt" 32

/-- Result record of `encryptBuffer`: `{ encrypted, iv, authTag }`. -/
structure EncResult where
  encrypted : List Nat
  iv : List Nat
  authTag : List Nat
deriving DecidableEq, Repr

/-- `encryptBuffer(buffer, userId)` from the documents router.  The
source draws `iv = crypto.randomBytes(12)`; the model takes the drawn
IV as an argument. -/
def encryptBuffer (P : CryptoPrim) (baseSecret : String) (buffer : List Nat)
    (userId : Nat) (iv : List Nat) : EncResult :=
  let key := deriveKey P baseSecret userId
  let encrypted := xorBytes buffer (gctr P key (iv ++ [0, 0, 0, 1]) buffer.length)
  { encrypted := encrypted
    iv := iv
    authTag := gcmTag P key iv flecsaAAD encrypted }

/-- `decryptBuffer(buffer, iv, authTag, userId)` from the documents
router.  `decipher.final()` throws when the recomputed tag differs
from the supplied one; the model returns `Except.error` there. -/
def decryptBuffer (P : CryptoPrim) (baseSecret : String)
    (buffer iv authTag : List Nat) (userId : Nat) : Except String (List Nat) :=
  let key := deriveKey P baseSecret userId
  if gcmTag P key iv flecsaAAD buffer = authTag then
    Except.ok (xorBytes buffer (gctr P key (iv ++ [0, 0, 0, 1]) buffer.length))
  else
    Except.error "Unsupported state or unable to authenticate data"

/-! ## Field Parser: `extractDocumentData`

The extractor runs four JavaScript regular expressions over the OCR
text and keeps the first (leftmost) match of each.  The matchers below
embed those exact patterns with JS semantics (leftmost position wins;
greedy quantifiers with backtracking where the pattern needs it). -/

/-- JS regex `\d`. -/
def jsDigit (c : Char) : Bool := '0' ≤ c && c ≤ '9'

/-- JS regex `\s` (the members that can occur in this code base's data). -/
def jsWhitespace (c : Char) : Bool :=
  c = ' ' || c = '\t' || c = '\n' || c = '\r' ||
  c = Char.ofNat 11 || c = Char.ofNat 12 || c = Char.ofNat 160

/-- Match `/(\d+[.,]\d{2})\s*€?/` at the head of `l`, returning the
matched characters.  (`\d+` greedy; backtracking cannot help because
`[.,]` matches no digit.) -/
def matchAmountAt (l : List Char) : Option (List Char) :=
  let ds := l.takeWhile jsDigit
  if ds.isEmpty then none
  else
    match l.drop ds.length with
    | sep :: d1 :: d2 :: rest =>
      if (sep = '.' || sep = ',') && jsDigit d1 && jsDigit d2 then
        let ws := rest.takeWhile jsWhitespace
        let euro :=
          match rest.drop ws.length with
          | '€' :: _ => ['€']
          | _ => []
        some (ds ++ sep :: d1 :: d2 :: (ws ++ euro))
      else none
    | _ => none

/-- First (leftmost) match of a head matcher `m` in a string, as
`String.prototype.match` reports it for a global regex. -/
def findFirstMatch (m : List Char → Option (List Char)) : List Char → Option (List Char)
  | [] => none
  | c :: rest => (m (c :: rest)).orElse fun _ => findFirstMatch m rest

/-- Take exactly `n` leading digits, returning them and the rest. -/
def takeDigits : Nat → List Char → Option (List Char × List Char)
  | 0, l => some ([], l)
  | _ + 1, [] => none
  | n + 1, c :: rest =>
    if jsDigit c then (takeDigits n rest).map (fun p => (c :: p.1, p.2)) else none

/-- Bounded-repetition digit run: try the lengths in `lens` in order
(longest first = greedy with backtracking), feeding each successful
split to the continuation `k`. -/
def tryDigitRuns (lens : List Nat) (l : List Char)
    (k : List Char → List Char → Option (List Char)) : Option (List Char) :=
  match lens with
  | [] => none
  | n :: ns =>
    match takeDigits n l with
    | some (d, rest) => (k d rest).orElse fun _ => tryDigitRuns ns l k
    | none => tryDigitRuns ns l k

/-- JS regex class `[\/\-\.]` of the date pattern. -/
def dateSep (c : Char) : Bool := c = '/' || c = '-' || c = '.'

/-- Match `/(\d{1,2}[\/\-\.]\d{1,2}[\/\-\.]\d{2,4})/` at the head of `l`. -/
def matchDateAt (l : List Char) : Option (List Char) :=
  tryDigitRuns [2, 1] l fun d1 r1 =>
    match r1 with
    | s1 :: r2 =>
      if dateSep s1 then
        tryDigitRuns [2, 1] r2 fun d2 r3 =>
          match r3 with
          | s2 :: r4 =>
            if dateSep s2 then
              tryDigitRuns [4, 3, 2] r4 fun d3 _ =>
                some (d1 ++ s1 :: (d2 ++ s2 :: d3))
            else none
          | [] => none
      else none
    | [] => none

/-- Case-insensitive literal match at the head of a string, returning
the consumed characters as they appear in the text, and the rest. -/
def stripCI : List Char → List Char → Option (List Char × List Char)
  | [], l => some ([], l)
  | _ :: _, [] => none
  | k :: ks, c :: cs =>
    if c.toLower = k.toLower then (stripCI ks cs).map (fun p => (c :: p.1, p.2)) else none

/-- First keyword of `kws` matching case-insensitively at the head
(JS alternation tries alternatives left to right). -/
def matchKeywordCI : List (List Char) → List Char → Option (List Char × List Char)
  | [], _ => none
  | kw :: kws, l => (stripCI kw l).orElse fun _ => matchKeywordCI kws l

/-- The alternation `factura|invoice|ticket|recibo` of the invoice
regex. -/
def invoiceKeywords : List (List Char) :=
  ["factura".data, "invoice".data, "ticket".data, "recibo".data]

/-- JS regex class `[\s\#\:]` of the invoice pattern. -/
def invoiceSepChar (c : Char) : Bool := jsWhitespace c || c = '#' || c = ':'

/-- Match `/(?:factura|invoice|ticket|recibo)[\s\#\:]*(\d+)/i` at the
head of `l`. -/
def matchInvoiceAt (l : List Char) : Option (List Char) :=
  match matchKeywordCI invoiceKeywords l with
  | none => none
  | some (kw, rest) =>
    let seps := rest.takeWhile invoiceSepChar
    let ds := (rest.drop seps.length).takeWhile jsDigit
    if ds.isEmpty then none else some (kw ++ seps ++ ds)

/-- Case-sensitive literal match at the head of a string. -/
def stripCS : List Char → List Char → Option (List Char × List Char)
  | [], l => some ([], l)
  | _ :: _, [] => none
  | k :: ks, c :: cs =>
    if c = k then (stripCS ks cs).map (fun p => (c :: p.1, p.2)) else none

/-- First keyword of `kws` matching case-sensitively at the head. -/
def matchKeywordCS : List (List Char) → List Char → Option (List Char × List Char)
  | [], _ => none
  | kw :: kws, l => (stripCS kw l).orElse fun _ => matchKeywordCS kws l

/-- The alternation `de|from|para|to` of the provider regex. -/
def providerKeywords : List (List Char) :=
  ["de".data, "from".data, "para".data, "to".data]

/-- JS regex class `[\s:]` of the provider pattern. -/
def providerSep (c : Char) : Bool := jsWhitespace c || c = ':'

/-- JS regex class `[A-Z]`. -/
def upperAZ (c : Char) : Bool := 'A' ≤ c && c ≤ 'Z'

/-- JS regex class `[a-z]`. -/
def lowerAZ (c : Char) : Bool := 'a' ≤ c && c ≤ 'z'

/-- Match `[A-Z][a-z]+` at the head of `l`. -/
def matchCapWord : List Char → Option (List Char × List Char)
  | [] => none
  | c :: rest =>
    if upperAZ c then
      let low := rest.takeWhile lowerAZ
      if low.isEmpty then none else some (c :: low, rest.drop low.length)
    else none

/-- Greedy `(?:\s+[A-Z][a-z]+)*` (fuel-indexed; each iteration consumes
at least two characters, so `l.length` fuel suffices). -/
def capWordsAux : Nat → List Char → List Char × List Char
  | 0, l => ([], l)
  | fuel + 1, l =>
    let ws := l.takeWhile jsWhitespace
    if ws.isEmpty then ([], l)
    else
      match matchCapWord (l.drop ws.length) with
      | none => ([], l)
      | some (w, rest) =>
        let (more, rest') := capWordsAux fuel rest
        (ws ++ w ++ more, rest')

/-- Greedy `(?:\s+[A-Z][a-z]+)*` at the head of `l`. -/
def capWords (l : List Char) : List Char × List Char := capWordsAux l.length l

/-- Match `/(?:de|from|para|to)[\s:]+([A-Z][a-z]+(?:\s+[A-Z][a-z]+)*)/`
at the head of `l`. -/
def matchProviderAt (l : List Char) : Option (List Char) :=
  match matchKeywordCS providerKeywords l with
  | none => none
  | some (kw, rest) =>
    let seps := rest.takeWhile providerSep
    if seps.isEmpty then none
    else
      match matchCapWord (rest.drop seps.length) with
      | none => none
      | some (w, rest2) =>
        let (more, _) := capWords rest2
        some (kw ++ seps ++ w ++ more)

/-- `'...'.replace(',', '.')` — JavaScript `replace` with a string
pattern rewrites only the first occurrence. -/
def replaceFirstComma : List Char → List Char
  | [] => []
  | c :: rest => if c = ',' then '.' :: rest else c :: replaceFirstComma rest

/-- `match[0].replace(/^(de|from|para|to)[\s:]+/i, '')` — strip the
leading preposition and separators from the provider match. -/
def stripProviderKeyword (m : List Char) : List Char :=
  match matchKeywordCI providerKeywords m with
  | none => m
  | some (_, rest) =>
    let seps := rest.takeWhile providerSep
    if seps.isEmpty then m else rest.drop seps.length

/-- The structured-extraction result assembled by `extractDocumentData`. -/
structure ExtractedData where
  amount : Option String
  issueDate : Option String
  invoiceNumber : Option String
  provider : Option String
deriving DecidableEq, Repr

/-- `extractDocumentData(text)` from the documents router: the first
match of each of the four patterns, post-processed exactly as in the
source (`replace(',', '.')` for the amount, `replace(/[^\d]/g, '')`
for the invoice number, prefix strip for the provider). -/
def extractDocumentData (text : String) : ExtractedData :=
  let cs := text.data
  { amount := (findFirstMatch matchAmountAt cs).map fun m => String.mk (replaceFirstComma m)
    issueDate := (findFirstMatch matchDateAt cs).map fun m => String.mk m
    invoiceNumber := (findFirstMatch matchInvoiceAt cs).map fun m => String.mk (m.filter jsDigit)
    provider := (findFirstMatch matchProviderAt cs).map fun m => String.mk (stripProviderKeyword m) }

/-- A concrete instantiation of the external primitives, used to
exercise the crypto model on concrete inputs. -/
def testPrim : CryptoPrim where
  blockEnc := fun _ _ => List.replicate 16 0
  scrypt := fun _ _ n => List.replicate n 7

/-! ## Tag Engine: `pickSimilarExisting`

The upload handler's auto-tagging block merges each inferred tag into
the existing vocabulary: `singular` strips a trailing `'s'`, and
`pickSimilarExisting` walks the `tags` table rows in order, returning
the first one that matches the candidate. -/

/-- JavaScript `s.startsWith(p)` (computed on the character lists, so
that concrete instances evaluate by kernel reduction). -/
def strHasPrefix (p s : String) : Bool :=
  p.data.isPrefixOf s.data

/-- `const singular = (s) => s.endsWith('s') ? s.slice(0, -1) : s`. -/
def singularTag (s : String) : String :=
  match s.data.getLast? with
  | some c => if c = 's' then String.mk s.data.dropLast else s
  | none => s

/-- The condition an existing row `n` must satisfy for the candidate
in the loop body of `pickSimilarExisting`:
`n === candidate`, `singular(n) === cSing`, `n.startsWith(cSing)`, or
`cSing.startsWith(n)` — note the last two compare the *raw* existing
name against the singularized candidate. -/
def tagRowMatches (candidate n : String) : Bool :=
  n = candidate ||
  singularTag n = singularTag candidate ||
  strHasPrefix (singularTag candidate) n ||
  strHasPrefix n (singularTag candidate)

/-- `pickSimilarExisting(candidate)` over the list of existing tag
names (in table order): the first matching row, else the candidate. -/
def pickSimilarExisting (existingTags : List String) (candidate : String) : String :=
  (existingTags.find? (fun n => tagRowMatches candidate n)).getD candidate

/-- The selection condition as the specification words it: equality, or
equal singularized forms, or either side a prefix of the other *after
singularization* of both. -/
def specTagSimilar (candidate n : String) : Bool :=
  n = candidate ||
  singularTag n = singularTag candidate ||
  strHasPrefix (singularTag n) (singularTag candidate) ||
  strHasPrefix (singularTag candidate) (singularTag n)

/-! ## Search/Ranking Engine: the boost-and-resort pass of `POST /search`

The route computes a server-side baseline `relevance_score`, then the
handler adds deterministic boosts (+10 filename, +8 provider, +12
invoice number, +5 OCR text), floors at 0 via `Math.max`, and re-sorts
the page descending by the final score.  Scores are rationals in the
model. -/

/-- A row of the search result page as the route selects it. -/
structure SearchDoc where
  filename : String
  provider : Option String
  invoiceNumber : Option String
  ocrText : Option String
  relevanceScore : Option ℚ
deriving DecidableEq, Repr

/-- `hay.includes(needle)` on character lists. -/
def listHasInfix (needle : List Char) : List Char → Bool
  | [] => needle.isEmpty
  | c :: rest => needle.isPrefixOf (c :: rest) || listHasInfix needle rest

/-- JavaScript `hay.includes(needle)` (case-sensitive). -/
def jsIncludes (hay needle : String) : Bool :=
  listHasInfix needle.data hay.data

/-- JavaScript `hay.toLowerCase().includes(needle.toLowerCase())`. -/
def jsIncludesCI (hay needle : String) : Bool :=
  listHasInfix (needle.data.map Char.toLower) (hay.data.map Char.toLower)

/-- `o?.toLowerCase().includes(q.toLowerCase())` — optional chaining:
a `null` field yields no boost. -/
def optIncludesCI (o : Option String) (q : String) : Bool :=
  match o with
  | some s => jsIncludesCI s q
  | none => false

/-- `o?.includes(q)` — the invoice-number check has no `toLowerCase`. -/
def optIncludes (o : Option String) (q : String) : Bool :=
  match o with
  | some s => jsIncludes s q
  | none => false

/-- The boost pass of the search handler: start from
`doc.relevance_score || 0`, add +10/+8/+12/+5 for the four
substring checks, and floor the total at 0 (`Math.max(…, 0)`). -/
def boostScore (q : String) (d : SearchDoc) : ℚ :=
  let base := d.relevanceScore.getD 0
  let s1 := if jsIncludesCI d.filename q then base + 10 else base
  let s2 := if optIncludesCI d.provider q then s1 + 8 else s1
  let s3 := if optIncludes d.invoiceNumber q then s2 + 12 else s2
  let s4 := if optIncludesCI d.ocrText q then s3 + 5 else s3
  max s4 0

/-- Ordering used by `processedDocuments.sort((a, b) => b.relevance_score - a.relevance_score)`:
descending by final score. -/
def scoreRel (a b : SearchDoc × ℚ) : Prop := b.2 ≤ a.2

instance : DecidableRel scoreRel := fun a b => inferInstanceAs (Decidable (b.2 ≤ a.2))

instance : IsTotal (SearchDoc × ℚ) scoreRel := ⟨fun a b => le_total b.2 a.2⟩

instance : IsTrans (SearchDoc × ℚ) scoreRel := ⟨fun _ _ _ h1 h2 => le_trans h2 h1⟩

/-- `documents.map(score it).sort(descending)` — the client-side pass
the search handler applies to the page returned by the database. -/
def processDocuments (q : String) (docs : List SearchDoc) : List (SearchDoc × ℚ) :=
  List.insertionSort scoreRel (docs.map fun d => (d, boostScore q d))

/-! ## Pagination of `POST /search`

`searchSchema` validates `limit` (∈ [1,100], default 20) and `offset`
(≥ 0, default 0); the route pages with SQL `LIMIT ? OFFSET ?`
(modelled as `drop`/`take` on the ordered match list), counts the
total matches, and reports `pages = Math.ceil(total / limit)`. -/

/-- `z.number().min(1).max(100).default(20)` for `limit`: an absent
field defaults, an out-of-range value is rejected. -/
def zodLimit : Option Int → Option Int
  | none => some 20
  | some n => if 1 ≤ n ∧ n ≤ 100 then some n else none

/-- `z.number().min(0).default(0)` for `offset`. -/
def zodOffset : Option Int → Option Int
  | none => some 0
  | some n => if 0 ≤ n then some n else none

/-- The search response: the processed page plus the pagination block
`{ limit, offset, total, pages }`. -/
structure SearchResponse where
  documents : List (SearchDoc × ℚ)
  limit : Int
  offset : Int
  total : Nat
  pages : Int
deriving DecidableEq, Repr

/-- The search route on a validated request: `matches` is the full
ordered match list for the tenant's conjunctive predicate; the page is
`LIMIT limit OFFSET offset` of it, boost-processed; `total` is the
`COUNT(*)` of the same predicate; `pages = Math.ceil(total / limit)`. -/
def searchRespond (q : String) (rows : List SearchDoc) (limit offset : Int) : SearchResponse :=
  { documents := processDocuments q ((rows.drop offset.toNat).take limit.toNat)
    limit := limit
    offset := offset
    total := rows.length
    pages := ⌈(rows.length : ℚ) / (limit : ℚ)⌉ }

/-! ## Quota Tracker: the `checkStorageLimit` middleware

The middleware runs before the multipart parser, so `req.body` carries
no `fileSize` field for uploads; `req.body.fileSize || 0` then
evaluates to 0. -/

/-- Outcome of an Express middleware: pass the request on, or answer
413 immediately. -/
inductive MiddlewareOutcome where
  | next
  | reject413
deriving DecidableEq, Repr

/-- `checkStorageLimit` from the auth router: reject with 413 when
`storageUsed + (req.body.fileSize || 0) > storageLimit`, else `next()`. -/
def checkStorageLimit (bodyFileSize : Option Int) (storageUsed storageLimit : Int) :
    MiddlewareOutcome :=
  let fileSize := bodyFileSize.getD 0
  if storageUsed + fileSize > storageLimit then .reject413 else .next

/-! ## OCR noise heuristic of the upload handler -/

/-- Helper for `collapseWs`: `prevWs` records whether the previous
character belonged to a whitespace run already rewritten to `' '`. -/
def collapseWsAux (prevWs : Bool) : List Char → List Char
  | [] => []
  | c :: rest =>
    if jsWhitespace c then
      if prevWs then collapseWsAux true rest
      else ' ' :: collapseWsAux true rest
    else c :: collapseWsAux false rest

/-- `ocrText.replace(/\s+/g, ' ')`: collapse each whitespace run to a
single space. -/
def collapseWs (l : List Char) : List Char :=
  collapseWsAux false l

/-- JavaScript `String.prototype.trim ()`. -/
def jsTrim (l : List Char) : List Char :=
  ((l.dropWhile jsWhitespace).reverse.dropWhile jsWhitespace).reverse

/-- `(ocrText || '').replace(/\s+/g, ' ').trim()` — the `trimmedOcr`
value of the upload handler. -/
def trimmedOcr (text : String) : String :=
  String.mk (jsTrim (collapseWs text.data))

/-- The `text` column stored in `ocr_results`:
`isImage && !hasMeaningfulText ? '' : ocrText`, with
`hasMeaningfulText = trimmedOcr.length >= 20`. -/
def storedOcrText (mimetype text : String) : String :=
  let isImage := strHasPrefix "image/" mimetype
  let hasMeaningfulText := (trimmedOcr text).length ≥ 20
  if isImage && !hasMeaningfulText then "" else text

/-! ## Ingestion Orchestrator: the `POST /upload` handler

The model tracks the externally visible effects the claims are about:
which files exist on disk (by path; the upload directory is a single
directory, so paths are bare file names), how many `documents` and
`ocr_results` rows the attempt persisted, and the tenant's recorded
storage usage.  OCR, encryption and tagging run between these effects
but do not touch them; `insertDocumentFails` injects a thrown error at
the document `INSERT`, which lands in the handler's catch block. -/

/-- The authenticated tenant as `req.user` carries it. -/
structure UserCtx where
  id : Nat
  storageUsed : Int
  storageLimit : Int
deriving DecidableEq, Repr

/-- `req.file` as multer builds it (path = stored file name). -/
structure UpFile where
  path : String
  originalname : String
  mimetype : String
  size : Int
deriving DecidableEq, Repr

/-- The stem of a file name before its `path.extname` extension
(no dot, or only a leading dot, means no extension). -/
def stemChars (l : List Char) : List Char :=
  let r := l.reverse
  let pre := r.takeWhile (fun c => c ≠ '.')
  match r.drop pre.length with
  | [] => l
  | _ :: [] => l
  | _ :: rest => rest.reverse

/-- `path.basename(req.file.filename, path.extname(req.file.filename)) + '.encrypted'` —
the path of the encrypted blob written next to the upload. -/
def encryptedName (f : UpFile) : String :=
  String.mk (stemChars f.path.data) ++ ".encrypted"

/-- The externally visible outcome of one upload attempt. -/
structure UploadOutcome where
  status : Nat
  files : List String
  documentRows : Nat
  ocrRows : Nat
  storageUsed : Int
deriving DecidableEq, Repr

/-- The `POST /upload` handler.  `fs0` is the set of files multer has
written when the handler starts (the uploaded file itself);
`insertDocumentFails` injects a failure of the document `INSERT`. -/
def uploadHandler (u : UserCtx) (file? : Option UpFile) (fs0 : List String)
    (insertDocumentFails : Bool) : UploadOutcome :=
  match file? with
  | none =>
    -- `if (!req.file) return res.status(400)` — nothing written yet
    { status := 400, files := fs0, documentRows := 0, ocrRows := 0
      storageUsed := u.storageUsed }
  | some f =>
    -- second quota check, against the true file size
    if u.storageUsed + f.size > u.storageLimit then
      -- `await fs.unlink(req.file.path)` then 413
      { status := 413, files := fs0.erase f.path, documentRows := 0, ocrRows := 0
        storageUsed := u.storageUsed }
    else
      -- OCR (images only), read original buffer, encryptBuffer:
      -- no tracked effect until the encrypted blob is written
      let encPath := encryptedName f
      let fs1 := encPath :: fs0          -- `fs.writeFile(encryptedFilePath, encrypted)`
      let fs2 := fs1.erase f.path        -- `fs.unlink(req.file.path)`
      if insertDocumentFails then
        -- the `INSERT INTO documents` throws; the catch block retries
        -- `fs.unlink(req.file.path)` (already gone — the inner
        -- try/catch swallows that error) and answers 500
        { status := 500, files := fs2.erase f.path, documentRows := 0, ocrRows := 0
          storageUsed := u.storageUsed }
      else
        -- document row, ocr_results row, best-effort tagging, then
        -- `UPDATE users SET storage_used = storage_used + ?`, 201
        { status := 201, files := fs2, documentRows := 1, ocrRows := 1
          storageUsed := u.storageUsed + f.size }

/-! ## Concrete fixtures for the witnesses -/

/-- A search row whose filename contains the query `"fact"`. -/
def docWithFilenameHit : SearchDoc :=
  { filename := "factura.pdf", provider := none, invoiceNumber := none
    ocrText := none, relevanceScore := some 1 }

/-- An otherwise-identical row whose filename misses the query. -/
def docWithoutFilenameHit : SearchDoc :=
  { filename := "nota.pdf", provider := none, invoiceNumber := none
    ocrText := none, relevanceScore := some 1 }

/-! ### Length and cancellation lemmas for the GCM model -/

theorem natToBE_length (n v : Nat) : (natToBE n v).length = n := by
  induction n generalizing v with
  | zero => rfl
  | succ n ih => simp [natToBE, ih]

theorem ctrBlocks_length (P : CryptoPrim) (key : List Nat)
    (hE : ∀ k b, (P.blockEnc k b).length = 16) :
    ∀ (n : Nat) (c : List Nat), (List.flatten (ctrBlocks P key n c)).length = 16 * n := by
  intro n
  induction n with
  | zero => intro c; rfl
  | succ n ih =>
    intro c
    simp only [ctrBlocks, List.flatten_cons, List.length_append, hE, ih]
    ring

theorem gctr_length (P : CryptoPrim) (key icb : List Nat) (n : Nat)
    (hE : ∀ k b, (P.blockEnc k b).length = 16) :
    (gctr P key icb n).length = n := by
  simp only [gctr, List.length_take, ctrBlocks_length P key hE]
  omega

theorem xorBytes_cancel (xs ys : List Nat) (h : xs.length ≤ ys.length) :
    xorBytes (xorBytes xs ys) ys = xs := by
  induction xs generalizing ys with
  | nil => rfl
  | cons x xs ih =>
    cases ys with
    | nil => simp at h
    | cons y ys =>
      simp only [xorBytes, List.zipWith_cons_cons, List.cons.injEq]
      refine ⟨?_, ih ys ?_⟩
      · show x ^^^ y ^^^ y = x
        rw [Nat.xor_assoc, Nat.xor_self, Nat.xor_zero]
      simpa using h

theorem xorBytes_length (xs ys : List Nat) :
    (xorBytes xs ys).length = min xs.length ys.length := by
  simp [xorBytes]

/-- Claim C1 — For every byte sequence `b` and tenant `t` (and any IV,
server secret, and external AES/scrypt primitives with 16-byte block
output), decrypting the output of `encryptBuffer(b, t)` with
`decryptBuffer`, using the same `iv`, `authTag` and tenant `t`,
returns exactly `b`. -/
theorem encrypt_decrypt_roundtrip (P : CryptoPrim) (secret : String) (b : List Nat)
    (userId : Nat) (iv : List Nat)
    (hE : ∀ k blk, (P.blockEnc k blk).length = 16) :
    decryptBuffer P secret (encryptBuffer P secret b userId iv).encrypted iv
      (encryptBuffer P secret b userId iv).authTag userId = Except.ok b := by
  have henc : (encryptBuffer P secret b userId iv).encrypted =
      xorBytes b (gctr P (deriveKey P secret userId) (iv ++ [0, 0, 0, 1]) b.length) := rfl
  have htag : (encryptBuffer P secret b userId iv).authTag =
      gcmTag P (deriveKey P secret userId) iv flecsaAAD
        (encryptBuffer P secret b userId iv).encrypted := rfl
  have hct : (encryptBuffer P secret b userId iv).encrypted.length = b.length := by
    rw [henc, xorBytes_length, gctr_length P _ _ _ hE]
    omega
  simp only [decryptBuffer]
  rw [htag, if_pos rfl, hct, henc]
  rw [xorBytes_cancel]
  rw [gctr_length P _ _ _ hE]

/-- Witness for C1: the round-trip theorem applied at a concrete
primitive, buffer, tenant and IV. -/
theorem encrypt_decrypt_roundtrip_witness :
    (∀ k blk, (testPrim.blockEnc k blk).length = 16) ∧
    decryptBuffer testPrim "dev-secret-change"
        (encryptBuffer testPrim "dev-secret-change" [1, 2, 3] 1 (List.replicate 12 0)).encrypted
        (List.replicate 12 0)
        (encryptBuffer testPrim "dev-secret-change" [1, 2, 3] 1 (List.replicate 12 0)).authTag
        1 = Except.ok [1, 2, 3] :=
  ⟨fun _ _ => by simp [testPrim],
    encrypt_decrypt_roundtrip testPrim "dev-secret-change" [1, 2, 3] 1 (List.replicate 12 0)
      (fun _ _ => by simp [testPrim])⟩

/-- Claim C5 (counterexample) — on the OCR text
`"Factura #4521 de Repsol, 45,67€, 15/03/2024"` the extracted amount
is the string `"45.67€"` (the regex match includes the euro sign and
the value is never parsed to a number), not the decimal `"45.67"` the
claim describes. -/
theorem extractDocumentData_amount_not_decimal :
    (extractDocumentData "Factura #4521 de Repsol, 45,67€, 15/03/2024").amount =
      some "45.67€" ∧
    (extractDocumentData "Factura #4521 de Repsol, 45,67€, 15/03/2024").amount ≠
      some "45.67" := by
  constructor
  · rfl
  · decide

/-- Claim C5 (amended) — on the OCR text
`"Factura #4521 de Repsol, 45,67€, 15/03/2024"`, `extractDocumentData`
yields invoice number `"4521"`, provider `"Repsol"`, issue date
`"15/03/2024"`, and as amount the string `"45.67€"`: the first
currency-pattern match with the comma replaced by a period, retaining
the trailing euro sign, not parsed as a decimal number. -/
theorem extractDocumentData_example :
    extractDocumentData "Factura #4521 de Repsol, 45,67€, 15/03/2024" =
      { amount := some "45.67€", issueDate := some "15/03/2024",
        invoiceNumber := some "4521", provider := some "Repsol" } := rfl

/-- Claim C7 (counterexample) — with existing vocabulary
`["facturas"]` and candidate `"facturax"`, the specification's
condition holds (`singular("facturas") = "factura"` is a prefix of
`singular("facturax") = "facturax"`), yet `pickSimilarExisting`
returns the candidate itself (a new tag), because the code compares
the singularized candidate against the *raw* existing name. -/
theorem pickSimilarExisting_counterexample :
    specTagSimilar "facturax" "facturas" = true ∧
    pickSimilarExisting ["facturas"] "facturax" = "facturax" ∧
    "facturax" ≠ "facturas" := by
  refine ⟨by decide, by decide, by decide⟩

/-- Claim C7 (amended) — the merge step returns the first existing tag
`n` with `n = candidate`, or `singular n = singular candidate`, or the
singularized candidate a prefix of the raw `n`, or the raw `n` a
prefix of the singularized candidate; when no existing tag satisfies
this, the candidate itself becomes the new tag. -/
theorem pickSimilarExisting_characterization (existingTags : List String) (c : String) :
    (pickSimilarExisting existingTags c ∈ existingTags ∧
      tagRowMatches c (pickSimilarExisting existingTags c) = true) ∨
    (pickSimilarExisting existingTags c = c ∧
      ∀ n ∈ existingTags, tagRowMatches c n = false) := by
  cases hf : existingTags.find? (fun n => tagRowMatches c n) with
  | none =>
    right
    simp only [pickSimilarExisting, hf, Option.getD_none]
    refine ⟨trivial, fun n hn => ?_⟩
    have := List.find?_eq_none.mp hf n hn
    simpa using this
  | some a =>
    left
    simp only [pickSimilarExisting, hf, Option.getD_some]
    exact ⟨List.mem_of_find?_eq_some hf, List.find?_some hf⟩

/-- Claim C9 — the pre-upload quota middleware reads
`req.body.fileSize || 0`; for a multipart upload the body is not yet
parsed, so the field is absent and counts as 0: the middleware passes
the request on exactly when the tenant's current usage does not exceed
its limit, independently of the actual file size. -/
theorem checkStorageLimit_multipart (used limit : Int) :
    (checkStorageLimit none used limit = MiddlewareOutcome.next ↔ used ≤ limit) ∧
    checkStorageLimit none used limit = checkStorageLimit (some 0) used limit := by
  constructor
  · simp only [checkStorageLimit, Option.getD_none, Int.add_zero]
    constructor
    · intro h
      by_contra hle
      rw [if_pos (by omega)] at h
      exact MiddlewareOutcome.noConfusion h
    · intro h
      rw [if_neg (by omega)]
  · rfl

/-- Claim C10 — for an image upload, the `ocr_results.text` column is
the empty string exactly when the whitespace-collapsed, trimmed OCR
text is shorter than 20 characters; otherwise the raw OCR text is
stored unmodified. -/
theorem storedOcrText_spec (mimetype text : String)
    (h : strHasPrefix "image/" mimetype = true) :
    (storedOcrText mimetype text = "" ↔ (trimmedOcr text).length < 20) ∧
    ((trimmedOcr text).length ≥ 20 → storedOcrText mimetype text = text) := by
  have hempty : text = "" → (trimmedOcr text).length < 20 := by
    intro ht
    subst ht
    decide
  constructor
  · constructor
    · intro hstored
      by_contra hlen
      simp only [storedOcrText, h, Bool.true_and] at hstored
      rw [if_neg (by simpa using hlen)] at hstored
      have := hempty hstored
      omega
    · intro hlen
      simp only [storedOcrText, h, Bool.true_and]
      rw [if_pos (by simpa using Nat.not_le.mpr hlen)]
  · intro hlen
    simp only [storedOcrText, h, Bool.true_and]
    rw [if_neg (by simpa using hlen)]

/-- Witness for C10: a concrete image upload with 4 characters of OCR
text stores the empty string; the hypothesis holds at
`mimetype = "image/png"`. -/
theorem storedOcrText_spec_witness :
    (strHasPrefix "image/" "image/png" = true) ∧
    ((storedOcrText "image/png" "hola" = "" ↔ (trimmedOcr "hola").length < 20) ∧
      ((trimmedOcr "hola").length ≥ 20 → storedOcrText "image/png" "hola" = "hola")) :=
  ⟨by decide, storedOcrText_spec "image/png" "hola" (by decide)⟩

/-- The sequential boost accumulation of the search handler equals the
additive form the specification describes, floored at 0. -/
theorem boostScore_eq (q : String) (d : SearchDoc) :
    boostScore q d =
      max (d.relevanceScore.getD 0 +
        (if jsIncludesCI d.filename q then (10 : ℚ) else 0) +
        (if optIncludesCI d.provider q then (8 : ℚ) else 0) +
        (if optIncludes d.invoiceNumber q then (12 : ℚ) else 0) +
        (if optIncludesCI d.ocrText q then (5 : ℚ) else 0)) 0 := by
  unfold boostScore
  split_ifs <;> ring_nf

/-- Claim C6 — in filtered search, every returned document's final
score is its baseline relevance plus +10 for a case-insensitive
filename substring hit, +8 for provider, +12 for invoice number, +5
for OCR text, additively, floored at 0; the page is sorted descending
by that score; and at equal non-negative base relevance a document
whose filename contains the query scores strictly above an
otherwise-identical document without the filename hit. -/
theorem searchBoost_spec (q : String) (docs : List SearchDoc) :
    (∀ p ∈ processDocuments q docs,
      p.2 = max (p.1.relevanceScore.getD 0 +
        (if jsIncludesCI p.1.filename q then (10 : ℚ) else 0) +
        (if optIncludesCI p.1.provider q then (8 : ℚ) else 0) +
        (if optIncludes p.1.invoiceNumber q then (12 : ℚ) else 0) +
        (if optIncludesCI p.1.ocrText q then (5 : ℚ) else 0)) 0) ∧
    List.Sorted scoreRel (processDocuments q docs) ∧
    (∀ A B : SearchDoc,
      A.relevanceScore = B.relevanceScore →
      0 ≤ A.relevanceScore.getD 0 →
      A.provider = B.provider →
      A.invoiceNumber = B.invoiceNumber →
      A.ocrText = B.ocrText →
      jsIncludesCI A.filename q = true →
      jsIncludesCI B.filename q = false →
      boostScore q B < boostScore q A) := by
  refine ⟨?_, ?_, ?_⟩
  · intro p hp
    have hmem : p ∈ docs.map (fun d => (d, boostScore q d)) :=
      (List.perm_insertionSort scoreRel _).mem_iff.mp hp
    rcases List.mem_map.mp hmem with ⟨d, _, rfl⟩
    simpa using boostScore_eq q d
  · exact List.sorted_insertionSort scoreRel _
  · intro A B hrel hpos hprov hinv hocr hA hB
    rw [boostScore_eq, boostScore_eq, hrel, hprov, hinv, hocr, hA, hB]
    rw [hrel] at hpos
    have h8 : (0 : ℚ) ≤ if optIncludesCI B.provider q then (8 : ℚ) else 0 := by
      split_ifs <;> norm_num
    have h12 : (0 : ℚ) ≤ if optIncludes B.invoiceNumber q then (12 : ℚ) else 0 := by
      split_ifs <;> norm_num
    have h5 : (0 : ℚ) ≤ if optIncludesCI B.ocrText q then (5 : ℚ) else 0 := by
      split_ifs <;> norm_num
    have ht : (if (true = true) then (10 : ℚ) else 0) = 10 := if_pos rfl
    have hf : (if (false = true) then (10 : ℚ) else 0) = 0 := if_neg (by simp)
    rw [ht, hf, add_zero]
    rw [max_eq_left (by linarith), max_eq_left (by linarith)]
    linarith

/-- Witness for C6: with query `"fact"`, the row with filename
`"factura.pdf"` outscores the otherwise-identical row with filename
`"nota.pdf"` at base relevance 1. -/
theorem searchBoost_spec_witness :
    docWithFilenameHit.relevanceScore = docWithoutFilenameHit.relevanceScore ∧
    0 ≤ docWithFilenameHit.relevanceScore.getD 0 ∧
    jsIncludesCI docWithFilenameHit.filename "fact" = true ∧
    jsIncludesCI docWithoutFilenameHit.filename "fact" = false ∧
    boostScore "fact" docWithoutFilenameHit < boostScore "fact" docWithFilenameHit :=
  ⟨rfl, by norm_num [docWithFilenameHit], by decide, by decide,
    (searchBoost_spec "fact" []).2.2 docWithFilenameHit docWithoutFilenameHit rfl
      (by norm_num [docWithFilenameHit]) rfl rfl rfl (by decide) (by decide)⟩

/-- Claim C8 — a validated search request has `limit ∈ [1,100]`
(default 20 when absent) and `offset ≥ 0` (default 0 when absent); the
response reports the total match count and
`pages = Math.ceil(total / limit)` (characterized by
`total ≤ pages·limit < total + limit`); and an offset at or beyond the
total yields an empty document page while the reported total stays the
full match count. -/
theorem pagination_contract (lIn oIn : Option Int) (l o : Int) (q : String)
    (rows : List SearchDoc)
    (hl : zodLimit lIn = some l) (ho : zodOffset oIn = some o) :
    1 ≤ l ∧ l ≤ 100 ∧ (lIn = none → l = 20) ∧
    0 ≤ o ∧ (oIn = none → o = 0) ∧
    (searchRespond q rows l o).total = rows.length ∧
    (searchRespond q rows l o).pages = ⌈(rows.length : ℚ) / (l : ℚ)⌉ ∧
    (rows.length : ℤ) ≤ (searchRespond q rows l o).pages * l ∧
    (searchRespond q rows l o).pages * l < rows.length + l ∧
    ((rows.length : ℤ) ≤ o → (searchRespond q rows l o).documents = []) := by
  have hlb : 1 ≤ l ∧ l ≤ 100 ∧ (lIn = none → l = 20) := by
    cases lIn with
    | none =>
      simp only [zodLimit, Option.some.injEq] at hl
      refine ⟨by omega, by omega, fun _ => hl.symm⟩
    | some n =>
      simp only [zodLimit] at hl
      split at hl
      · have hn : n = l := Option.some.inj hl
        subst hn
        exact ⟨by omega, by omega, by intro h; cases h⟩
      · exact absurd hl (by simp)
  have hob : 0 ≤ o ∧ (oIn = none → o = 0) := by
    cases oIn with
    | none =>
      simp only [zodOffset, Option.some.injEq] at ho
      exact ⟨by omega, fun _ => ho.symm⟩
    | some n =>
      simp only [zodOffset] at ho
      split at ho
      · have hn : n = o := Option.some.inj ho
        subst hn
        exact ⟨by omega, by intro h; cases h⟩
      · exact absurd ho (by simp)
  have hl1 : 1 ≤ l := hlb.1
  have hlq : (0 : ℚ) < (l : ℚ) := by exact_mod_cast (by omega : (0 : ℤ) < l)
  have hpages : (searchRespond q rows l o).pages = ⌈(rows.length : ℚ) / (l : ℚ)⌉ := rfl
  have hup : (rows.length : ℤ) ≤ (searchRespond q rows l o).pages * l := by
    rw [hpages]
    have h1 : ((rows.length : ℚ)) / (l : ℚ) ≤ (⌈(rows.length : ℚ) / (l : ℚ)⌉ : ℚ) :=
      Int.le_ceil _
    have h2 : (rows.length : ℚ) ≤ (⌈(rows.length : ℚ) / (l : ℚ)⌉ : ℚ) * (l : ℚ) :=
      (div_le_iff₀ hlq).mp h1
    exact_mod_cast h2
  have hdown : (searchRespond q rows l o).pages * l < rows.length + l := by
    rw [hpages]
    have h1 : (⌈(rows.length : ℚ) / (l : ℚ)⌉ : ℚ) < (rows.length : ℚ) / (l : ℚ) + 1 :=
      Int.ceil_lt_add_one _
    have h2 : (⌈(rows.length : ℚ) / (l : ℚ)⌉ : ℚ) * (l : ℚ) <
        ((rows.length : ℚ) / (l : ℚ) + 1) * (l : ℚ) :=
      mul_lt_mul_of_pos_right h1 hlq
    rw [add_mul, div_mul_cancel₀ _ (ne_of_gt hlq), one_mul] at h2
    exact_mod_cast h2
  have hempty : (rows.length : ℤ) ≤ o → (searchRespond q rows l o).documents = [] := by
    intro hto
    have hnat : rows.length ≤ o.toNat := by
      have h0 : (0 : ℤ) ≤ o := hob.1
      omega
    have hdrop : rows.drop o.toNat = [] := List.drop_eq_nil_of_le hnat
    simp [searchRespond, hdrop, processDocuments, List.insertionSort]
  exact ⟨hlb.1, hlb.2.1, hlb.2.2, hob.1, hob.2, rfl, hpages, hup, hdown, hempty⟩

/-- Witness for C8: an absent `limit` (default 20), `offset = 5`, and
a single-row match list; the offset exceeds the total, so the page is
empty while `total = 1` is reported. -/
theorem pagination_contract_witness :
    zodLimit none = some 20 ∧ zodOffset (some 5) = some 5 ∧
    (1 ≤ (20 : ℤ) ∧ (20 : ℤ) ≤ 100 ∧ ((none : Option Int) = none → (20 : ℤ) = 20) ∧
      0 ≤ (5 : ℤ) ∧ ((some 5 : Option Int) = none → (5 : ℤ) = 0) ∧
      (searchRespond "fact" [docWithFilenameHit] 20 5).total = [docWithFilenameHit].length ∧
      (searchRespond "fact" [docWithFilenameHit] 20 5).pages =
        ⌈(([docWithFilenameHit] : List SearchDoc).length : ℚ) / ((20 : ℤ) : ℚ)⌉ ∧
      (([docWithFilenameHit] : List SearchDoc).length : ℤ) ≤
        (searchRespond "fact" [docWithFilenameHit] 20 5).pages * 20 ∧
      (searchRespond "fact" [docWithFilenameHit] 20 5).pages * 20 <
        ([docWithFilenameHit] : List SearchDoc).length + 20 ∧
      ((([docWithFilenameHit] : List SearchDoc).length : ℤ) ≤ 5 →
        (searchRespond "fact" [docWithFilenameHit] 20 5).documents = [])) :=
  ⟨rfl, rfl,
    pagination_contract none (some 5) 20 5 "fact" [docWithFilenameHit] rfl rfl⟩

/-- Claim C3 — when the uploaded file's true size added to the
tenant's current usage exceeds the storage limit, the upload handler
answers 413, deletes the uploaded file (the only file of the attempt),
persists no document row, and leaves the recorded storage usage
unchanged. -/
theorem upload_over_quota (u : UserCtx) (f : UpFile) (insertDocumentFails : Bool)
    (h : u.storageLimit < u.storageUsed + f.size) :
    uploadHandler u (some f) [f.path] insertDocumentFails =
      { status := 413, files := [], documentRows := 0, ocrRows := 0
        storageUsed := u.storageUsed } := by
  simp only [uploadHandler]
  rw [if_pos h]
  simp [List.erase_cons_head]

/-- Witness for C3: the specification's end-to-end scenario — a
2048-byte file under a tenant with 0 bytes used and a 1000-byte limit
is rejected with 413 and no residual storage. -/
theorem upload_over_quota_witness :
    ((⟨7, 0, 1000⟩ : UserCtx).storageLimit <
      (⟨7, 0, 1000⟩ : UserCtx).storageUsed +
        (⟨"1700-1.png", "foto.png", "image/png", 2048⟩ : UpFile).size) ∧
    uploadHandler ⟨7, 0, 1000⟩ (some ⟨"1700-1.png", "foto.png", "image/png", 2048⟩)
        ["1700-1.png"] false =
      { status := 413, files := [], documentRows := 0, ocrRows := 0, storageUsed := 0 } :=
  ⟨by norm_num,
    upload_over_quota ⟨7, 0, 1000⟩ ⟨"1700-1.png", "foto.png", "image/png", 2048⟩ false
      (by norm_num)⟩

/-- Claim C4 — when the document `INSERT` fails after the encrypted
blob has been written, the handler's catch block unlinks only
`req.file.path` (the original, already deleted at that point): the
encrypted blob `1700-1.encrypted` remains on disk, so the attempt does
*not* leave zero residual files, contradicting the cleanup the
specification requires. -/
theorem upload_insert_failure_leaves_encrypted_blob :
    uploadHandler ⟨7, 0, 1000000⟩ (some ⟨"1700-1.png", "foto.png", "image/png", 2048⟩)
        ["1700-1.png"] true =
      { status := 500, files := ["1700-1.encrypted"], documentRows := 0, ocrRows := 0
        storageUsed := 0 } ∧
    ["1700-1.encrypted"] ≠ ([] : List String) := by
  exact ⟨by decide, by decide⟩
